import Mathlib

/-!
# Media model (`src/models/Media.js`)

A shallow embedding of the `Media` data-access model: the tag reconciliation
`setTags`, the project-scoped `bulkDelete`, the output shaping `toJSON` and the
strict `jsonSchema`.

Storage is an explicit value `Db` threaded through the operations.  Identifiers
are integers (`type: 'integer'` in the schema).
-/

/-- A row of the `mediaTag` table, as far as `Media` reads it: `setTags` reads
`id`, `toJSON` reads `name`. -/
structure MediaTag where
  id : Int
  name : String
deriving DecidableEq, Repr

/-- A row of the join table `media_mediaTag` (`relationMappings.tags.join.through`). -/
structure JoinRow where
  mediaId : Int
  mediaTagId : Int
deriving DecidableEq, Repr

/-- A `media` row (the properties of `jsonSchema`), together with the `tags`
relation when it has been loaded (`eager('tags')`).  `thumbnail`, `createdAt`
and `modifiedAt` are not required by the schema; `tags` is absent unless
fetched. -/
structure Media where
  id : Int
  name : String
  file : String
  thumbnail : Option String
  mimeType : String
  size : Int
  width : Int
  height : Int
  description : String
  projectId : Int
  userId : Int
  createdAt : Option String
  modifiedAt : Option String
  tags : Option (List MediaTag)
deriving DecidableEq, Repr

/-- The plain object `toJSON` returns: the same attributes, `tags` holding names. -/
structure MediaJSON where
  id : Int
  name : String
  file : String
  thumbnail : Option String
  mimeType : String
  size : Int
  width : Int
  height : Int
  description : String
  projectId : Int
  userId : Int
  createdAt : Option String
  modifiedAt : Option String
  tags : Option (List String)
deriving DecidableEq, Repr

/-- The relational store `Media` queries.  `media` is the `media` table and
`media_mediaTag` the join table.  The tag catalog is external and referenced by
identifier only: `tagName` gives the `name` column of the `mediaTag` row with a
given id (every `mediaTagId` of a join row names a catalog row). -/
structure Db where
  media : List Media
  media_mediaTag : List JoinRow
  tagName : Int → String

/-- The module `config`: the one value `Media` reads from it. -/
structure Config where
  MEDIA_URL : String

/-- lodash `_.difference(array, values)`: the elements of `array` that do not
occur in `values`, in the order of `array`; repeated elements of `array` are
kept. -/
def difference (array values : List Int) : List Int :=
  array.filter (fun v => decide (v ∉ values))

namespace Media

/-- `this.$relatedQuery('tags', trx)` as a read: the `mediaTag` rows joined to
this record through `media_mediaTag`, one per join row. -/
def getTags (db : Db) (self : Media) : List MediaTag :=
  (db.media_mediaTag.filter (fun r => decide (r.mediaId = self.id))).map
    (fun r => { id := r.mediaTagId, name := db.tagName r.mediaTagId })

/-- `this.$relatedQuery('tags', trx).unrelate().whereIn('id', ids)`: deletes the
join rows of this record whose tag id is in `ids`. -/
def unrelate (db : Db) (self : Media) (ids : List Int) : Db :=
  let kept := db.media_mediaTag.filter
    (fun r => decide (¬ (r.mediaId = self.id ∧ r.mediaTagId ∈ ids)))
  { db with media_mediaTag := kept }

/-- `this.$relatedQuery('tags', trx).relate(ids)`: inserts one join row for this
record per element of `ids`. -/
def relate (db : Db) (self : Media) (ids : List Int) : Db :=
  let inserted : List JoinRow := ids.map (fun t => { mediaId := self.id, mediaTagId := t })
  { db with media_mediaTag := db.media_mediaTag ++ inserted }

/-- `const incomingTagIds = mediaTags.map(entryTag => entryTag.id)`. -/
def incomingTagIds (mediaTags : List MediaTag) : List Int :=
  mediaTags.map (fun entryTag => entryTag.id)

/-- `const existingTagIds = (await this.getTags(trx)).map(entryTag => entryTag.id)`. -/
def existingTagIds (db : Db) (self : Media) : List Int :=
  (getTags db self).map (fun entryTag => entryTag.id)

/-- `const idsToUnrelate = _.difference(existingTagIds, incomingTagIds)`. -/
def idsToUnrelate (db : Db) (self : Media) (mediaTags : List MediaTag) : List Int :=
  difference (existingTagIds db self) (incomingTagIds mediaTags)

/-- `const idsToRelate = _.difference(incomingTagIds, existingTagIds)`. -/
def idsToRelate (db : Db) (self : Media) (mediaTags : List MediaTag) : List Int :=
  difference (incomingTagIds mediaTags) (existingTagIds db self)

/-- `setTags(mediaTags, trx)`.  The two writes `p1` (unrelate) and `p2` (relate)
are started together and awaited with `Promise.all`; each is one statement, so
the store sees them in one of the two orders, chosen by `relateFirst`.  Returns
the new store and `mediaTags` itself. -/
def setTags (db : Db) (self : Media) (mediaTags : List MediaTag) (relateFirst : Bool) :
    Db × List MediaTag :=
  let toUnrelate := idsToUnrelate db self mediaTags
  let toRelate := idsToRelate db self mediaTags
  let db' :=
    if relateFirst then unrelate (relate db self toRelate) self toUnrelate
    else relate (unrelate db self toUnrelate) self toRelate
  (db', mediaTags)

/-- `Media.bulkDelete(arrayOfIds, projectId, trx)`:
`whereIn('id', arrayOfIds).andWhere('projectId', projectId).delete()`, which
resolves to the number of rows deleted. -/
def bulkDelete (db : Db) (arrayOfIds : List Int) (projectId : Int) : Db × Nat :=
  let hit : Media → Bool := fun r => decide (r.id ∈ arrayOfIds ∧ r.projectId = projectId)
  ({ db with media := db.media.filter (fun r => !hit r) }, (db.media.filter hit).length)

/-- `super.toJSON()`: a fresh plain object carrying the record's attributes and
its loaded relation. -/
def superToJSON (self : Media) : Media := self

/-- `toJSON()`.  `resolve` is Node's `url.resolve`.  `if (data.thumbnail)` is
false for an absent and for an empty string; `'tags' in data` holds when the
relation was loaded. -/
def toJSON (resolve : String → String → String) (config : Config) (self : Media) : MediaJSON :=
  let data := superToJSON self
  { id := data.id
    name := data.name
    file := resolve config.MEDIA_URL data.file
    thumbnail :=
      match data.thumbnail with
      | some t => if t ≠ "" then some (resolve config.MEDIA_URL t) else some t
      | none => none
    mimeType := data.mimeType
    size := data.size
    width := data.width
    height := data.height
    description := data.description
    projectId := data.projectId
    userId := data.userId
    createdAt := data.createdAt
    modifiedAt := data.modifiedAt
    tags :=
      match data.tags with
      | some tags => some (tags.map (fun tag => tag.name))
      | none => none }

end Media

/-! ## The JSON schema and write-path validation -/

/-- A JSON value as schema validation sees it: the contents of a nested array
or object are never inspected by `jsonSchema`, which declares scalar
properties only. -/
inductive JsonValue where
  | null
  | bool (b : Bool)
  | number (q : ℚ)
  | string (s : String)
  | array
  | object
deriving DecidableEq

/-- An input object: its own properties, by name. -/
abbrev JsonObject := List (String × JsonValue)

/-- The keywords `jsonSchema` uses on a property. -/
structure PropertySchema where
  type : String
  maxLength : Option Nat := none
  minimum : Option Int := none
  default : Option JsonValue := none
  format : Option String := none

/-- The keywords `jsonSchema` uses on the object. -/
structure JsonSchema where
  type : String
  additionalProperties : Bool
  properties : List (String × PropertySchema)
  required : List String

namespace Media

/-- `static get jsonSchema()`. -/
def jsonSchema : JsonSchema :=
  { type := "object"
    additionalProperties := false
    properties := [
      ("id", { type := "integer" }),
      ("name", { type := "string", maxLength := some 512 }),
      ("file", { type := "string", maxLength := some 512 }),
      ("thumbnail", { type := "string", maxLength := some 512 }),
      ("mimeType", { type := "string", maxLength := some 128 }),
      ("size", { type := "integer", default := some (.number 0) }),
      ("width", { type := "integer", default := some (.number 0), minimum := some 0 }),
      ("height", { type := "integer", default := some (.number 0), minimum := some 0 }),
      ("description", { type := "string", default := some (.string ""), maxLength := some 64 }),
      ("projectId", { type := "integer" }),
      ("userId", { type := "integer" }),
      ("createdAt", { type := "string", format := some "date-time" }),
      ("modifiedAt", { type := "string", format := some "date-time" })]
    required := ["name", "file", "mimeType", "size", "projectId", "userId"] }

end Media

/-- The error a failed schema validation raises: the offending properties, each
with the keyword it violates. -/
structure ValidationError where
  data : List (String × String)
deriving DecidableEq

/-- Modelled from the spec: the schema validator of the relational-mapping
library (not part of this repository), for the keywords `jsonSchema` uses.
The violations of one property value against its property schema: a value of
the wrong type violates `type`; `minimum` applies to numbers, `maxLength` and
`format` to strings.  `isDateTime` decides the `date-time` format. -/
def propertyErrors (isDateTime : String → Bool) (key : String) (ps : PropertySchema)
    (v : JsonValue) : List (String × String) :=
  match v with
  | .number q =>
    if ps.type = "integer" ∧ q.den = 1 then
      match ps.minimum with
      | some m => if q < m then [(key, "minimum")] else []
      | none => []
    else [(key, "type")]
  | .string s =>
    if ps.type = "string" then
      (match ps.maxLength with
        | some n => if n < s.length then [(key, "maxLength")] else []
        | none => [])
      ++ (match ps.format with
        | some f => if f = "date-time" ∧ !isDateTime s then [(key, "format")] else []
        | none => [])
    else [(key, "type")]
  | _ => [(key, "type")]

/-- Modelled from the spec: the validator fills in declared defaults for absent
properties before checking. -/
def applyDefaults (schema : JsonSchema) (json : JsonObject) : JsonObject :=
  json ++ schema.properties.filterMap (fun kp =>
    if kp.1 ∈ json.map Prod.fst then none else kp.2.default.map (fun d => (kp.1, d)))

/-- Modelled from the spec: validation of an input object against a schema
("strict schema; unknown fields rejected"; wrong type, missing required field,
length/range violation).  Every violation is collected; the input passes when
there is none. -/
def validate (isDateTime : String → Bool) (schema : JsonSchema) (json : JsonObject) :
    Except ValidationError JsonObject :=
  let data := applyDefaults schema json
  let missing := (schema.required.filter (fun k => decide (k ∉ data.map Prod.fst))).map
    (fun k => (k, "required"))
  let additional :=
    if schema.additionalProperties then []
    else (data.filter (fun kv => decide (kv.1 ∉ schema.properties.map Prod.fst))).map
      (fun kv => (kv.1, "additionalProperties"))
  let declared := data.flatMap (fun kv =>
    (schema.properties.filter (fun kp => decide (kp.1 = kv.1))).flatMap
      (fun kp => propertyErrors isDateTime kv.1 kp.2 kv.2))
  let errors := missing ++ additional ++ declared
  if errors = [] then .ok data else .error { data := errors }

/-- The integer stored under `key`, 0 when there is none. -/
def JsonObject.int (json : JsonObject) (key : String) : Int :=
  match json.lookup key with
  | some (.number q) => q.num
  | _ => 0

/-- The string stored under `key`, if any. -/
def JsonObject.str? (json : JsonObject) (key : String) : Option String :=
  match json.lookup key with
  | some (.string s) => some s
  | _ => none

namespace Media

/-- Modelled from the spec: the create operation `Media` inherits from the
generic record manager (not part of this repository).  The input is validated
against `jsonSchema` before any storage write; on violation the call fails with
the `ValidationError` and the store is left as it was; otherwise one row is
inserted, its `id` assigned by storage when the input gives none. -/
def create (isDateTime : String → Bool) (db : Db) (json : JsonObject) :
    Db × Except ValidationError Media :=
  match validate isDateTime jsonSchema json with
  | .error e => (db, .error e)
  | .ok data =>
    let fresh : Int := (db.media.map (fun r => r.id)).foldl max 0 + 1
    let row : Media :=
      { id := if "id" ∈ data.map Prod.fst then data.int "id" else fresh
        name := (data.str? "name").getD ""
        file := (data.str? "file").getD ""
        thumbnail := data.str? "thumbnail"
        mimeType := (data.str? "mimeType").getD ""
        size := data.int "size"
        width := data.int "width"
        height := data.int "height"
        description := (data.str? "description").getD ""
        projectId := data.int "projectId"
        userId := data.int "userId"
        createdAt := data.str? "createdAt"
        modifiedAt := data.str? "modifiedAt"
        tags := none }
    ({ db with media := db.media ++ [row] }, .ok row)

end Media

/-! ## Example data -/

/-- A record with id 1 in project 5, no thumbnail, tags not loaded. -/
def exampleRecord : Media :=
  { id := 1, name := "b", file := "a/b.png", thumbnail := none, mimeType := "image/png",
    size := 0, width := 0, height := 0, description := "", projectId := 5, userId := 1,
    createdAt := none, modifiedAt := none, tags := none }

/-- Tags A, B, C of the examples have ids 10, 11, 12. -/
def exampleTagName (i : Int) : String :=
  if i = 10 then "A" else if i = 11 then "B" else if i = 12 then "C" else ""

/-- Rows 1, 2, 3 of the `media` table: rows 1 and 3 in project 5, row 2 in
project 7.  Record 1 is tagged {A, B}; record 2 is tagged {A}. -/
def exampleDb : Db :=
  { media := [exampleRecord, { exampleRecord with id := 2, projectId := 7 },
      { exampleRecord with id := 3 }]
    media_mediaTag := [⟨1, 10⟩, ⟨1, 11⟩, ⟨2, 10⟩]
    tagName := exampleTagName }

/-! ## Shared lemmas: `difference` and the join table -/

theorem mem_difference (array values : List Int) (x : Int) :
    x ∈ difference array values ↔ x ∈ array ∧ x ∉ values := by
  simp [difference]

theorem difference_count (array values : List Int) (x : Int) :
    (difference array values).count x = if x ∈ values then 0 else array.count x := by
  unfold difference
  by_cases hx : x ∈ values
  · rw [if_pos hx, List.count_eq_zero]
    simp [hx]
  · rw [if_neg hx, List.count_filter]
    simpa using hx

namespace Media

theorem existingTagIds_eq (db : Db) (self : Media) :
    existingTagIds db self =
      (db.media_mediaTag.filter (fun r => decide (r.mediaId = self.id))).map
        (fun r => r.mediaTagId) := by
  simp [existingTagIds, getTags, Function.comp_def]

theorem mem_existingTagIds (db : Db) (self : Media) (x : Int) :
    x ∈ existingTagIds db self ↔ { mediaId := self.id, mediaTagId := x } ∈ db.media_mediaTag := by
  rw [existingTagIds_eq]
  simp only [List.mem_map, List.mem_filter, decide_eq_true_eq]
  constructor
  · rintro ⟨r, ⟨hr, hid⟩, rfl⟩
    cases r
    simp only at hid
    subst hid
    exact hr
  · intro h
    exact ⟨_, ⟨h, rfl⟩, rfl⟩

theorem existingTagIds_relate (db : Db) (self : Media) (ids : List Int) :
    existingTagIds (relate db self ids) self = existingTagIds db self ++ ids := by
  simp [existingTagIds_eq, relate, List.filter_append, List.filter_map, Function.comp_def]

theorem existingTagIds_unrelate (db : Db) (self : Media) (ids : List Int) :
    existingTagIds (unrelate db self ids) self =
      (existingTagIds db self).filter (fun x => decide (x ∉ ids)) := by
  simp only [existingTagIds_eq, unrelate, List.filter_filter, List.filter_map]
  congr 1
  apply List.filter_congr
  intro r _
  by_cases h : r.mediaId = self.id <;> simp [h]

/-- The two writes of `setTags` commute: the rows `relate` inserts are not among
those `unrelate` deletes. -/
theorem relate_unrelate_comm (db : Db) (self : Media) (mediaTags : List MediaTag) :
    unrelate (relate db self (idsToRelate db self mediaTags)) self
        (idsToUnrelate db self mediaTags) =
      relate (unrelate db self (idsToUnrelate db self mediaTags)) self
        (idsToRelate db self mediaTags) := by
  simp only [unrelate, relate, List.filter_append]
  congr 2
  rw [List.filter_eq_self]
  intro r hr
  simp only [List.mem_map] at hr
  obtain ⟨t, ht, rfl⟩ := hr
  have h1 := (mem_difference _ _ t).1 ht
  have h2 : t ∉ idsToUnrelate db self mediaTags := fun h =>
    h1.2 ((mem_difference _ _ t).1 h).1
  simp [h2]

theorem setTags_fst (db : Db) (self : Media) (mediaTags : List MediaTag) (relateFirst : Bool) :
    (setTags db self mediaTags relateFirst).1 =
      relate (unrelate db self (idsToUnrelate db self mediaTags)) self
        (idsToRelate db self mediaTags) := by
  cases relateFirst
  · simp [setTags]
  · simp [setTags, relate_unrelate_comm]

theorem existingTagIds_setTags (db : Db) (self : Media) (mediaTags : List MediaTag)
    (relateFirst : Bool) :
    existingTagIds (setTags db self mediaTags relateFirst).1 self =
      (existingTagIds db self).filter (fun x => decide (x ∉ idsToUnrelate db self mediaTags))
        ++ idsToRelate db self mediaTags := by
  rw [setTags_fst, existingTagIds_relate, existingTagIds_unrelate]

end Media

/-! ## `setTags` -/

namespace Media

/-- C1: after `setTags` (in either order of its two writes) the tag ids joined to
the record are the existing ids without `idsToUnrelate`, followed by
`idsToRelate`, and as a set they are exactly the ids of the incoming tags. -/
theorem setTags_reconciles (db : Db) (self : Media) (mediaTags : List MediaTag)
    (relateFirst : Bool) :
    existingTagIds (setTags db self mediaTags relateFirst).1 self =
        (existingTagIds db self).filter
          (fun x => decide (x ∉ idsToUnrelate db self mediaTags))
          ++ idsToRelate db self mediaTags
      ∧ (∀ x, x ∈ existingTagIds (setTags db self mediaTags relateFirst).1 self ↔
          x ∈ incomingTagIds mediaTags)
      ∧ (existingTagIds (setTags db self mediaTags relateFirst).1 self).toFinset =
          (incomingTagIds mediaTags).toFinset := by
  have key : ∀ x, x ∈ existingTagIds (setTags db self mediaTags relateFirst).1 self ↔
      x ∈ incomingTagIds mediaTags := by
    intro x
    rw [existingTagIds_setTags]
    simp only [List.mem_append, List.mem_filter, decide_eq_true_eq, idsToUnrelate,
      idsToRelate, mem_difference]
    tauto
  refine ⟨existingTagIds_setTags db self mediaTags relateFirst, key, ?_⟩
  ext x
  simp only [List.mem_toFinset]
  exact key x

/-- C1, the example of the specification: record 1 tagged {A, B}, incoming
[B, C]; afterwards it is tagged exactly {B, C}. -/
theorem setTags_reconciles_example :
    (existingTagIds (setTags exampleDb exampleRecord [⟨11, "B"⟩, ⟨12, "C"⟩] false).1
        exampleRecord).toFinset = ({11, 12} : Finset Int)
      ∧ existingTagIds (setTags exampleDb exampleRecord [⟨11, "B"⟩, ⟨12, "C"⟩] false).1
        exampleRecord = [11, 12] :=
  ⟨(setTags_reconciles exampleDb exampleRecord [⟨11, "B"⟩, ⟨12, "C"⟩] false).2.2.trans
      (by decide), by decide⟩

/-- C5: the two id lists `setTags` computes are disjoint, `idsToUnrelate` holds
only existing ids and `idsToRelate` only incoming ids. -/
theorem idsToUnrelate_idsToRelate_disjoint (db : Db) (self : Media)
    (mediaTags : List MediaTag) :
    (∀ x, ¬ (x ∈ idsToUnrelate db self mediaTags ∧ x ∈ idsToRelate db self mediaTags))
      ∧ (∀ x, x ∈ idsToUnrelate db self mediaTags → x ∈ existingTagIds db self)
      ∧ (∀ x, x ∈ idsToRelate db self mediaTags → x ∈ incomingTagIds mediaTags) := by
  simp only [idsToUnrelate, idsToRelate, mem_difference]
  refine ⟨?_, ?_, ?_⟩
  · rintro x ⟨⟨h1, _⟩, ⟨_, h2⟩⟩
    exact h2 h1
  · intro x h
    exact h.1
  · intro x h
    exact h.1

/-- C4: a tag id that is both existing and incoming is in neither computed id
list, and the join rows of the record for that id are the same after `setTags`
as before (none deleted, none inserted), so the row is still present. -/
theorem setTags_common_untouched (db : Db) (self : Media) (mediaTags : List MediaTag)
    (relateFirst : Bool) (x : Int) (hE : x ∈ existingTagIds db self)
    (hT : x ∈ incomingTagIds mediaTags) :
    x ∉ idsToUnrelate db self mediaTags
      ∧ x ∉ idsToRelate db self mediaTags
      ∧ (setTags db self mediaTags relateFirst).1.media_mediaTag.filter
          (fun r => decide (r = { mediaId := self.id, mediaTagId := x })) =
        db.media_mediaTag.filter
          (fun r => decide (r = { mediaId := self.id, mediaTagId := x }))
      ∧ { mediaId := self.id, mediaTagId := x } ∈
          (setTags db self mediaTags relateFirst).1.media_mediaTag := by
  have hU : x ∉ idsToUnrelate db self mediaTags := fun h =>
    ((mem_difference _ _ x).1 h).2 hT
  have hR : x ∉ idsToRelate db self mediaTags := fun h =>
    ((mem_difference _ _ x).1 h).2 hE
  have hrows : (setTags db self mediaTags relateFirst).1.media_mediaTag.filter
          (fun r => decide (r = { mediaId := self.id, mediaTagId := x })) =
        db.media_mediaTag.filter
          (fun r => decide (r = { mediaId := self.id, mediaTagId := x })) := by
    rw [setTags_fst]
    simp only [relate, unrelate, List.filter_append, List.filter_filter]
    have h2 : List.filter (fun r => decide (r = { mediaId := self.id, mediaTagId := x }))
        (List.map (fun t => ({ mediaId := self.id, mediaTagId := t } : JoinRow))
          (idsToRelate db self mediaTags)) = [] := by
      rw [List.filter_eq_nil_iff]
      intro r hr
      simp only [List.mem_map] at hr
      obtain ⟨t, ht, rfl⟩ := hr
      simp only [decide_eq_true_eq, JoinRow.mk.injEq, true_and]
      rintro rfl
      exact hR ht
    rw [h2, List.append_nil]
    apply List.filter_congr
    intro r _
    by_cases hr : r = { mediaId := self.id, mediaTagId := x }
    · subst hr
      simp [hU]
    · simp [hr]
  refine ⟨hU, hR, hrows, ?_⟩
  have hmem : ({ mediaId := self.id, mediaTagId := x } : JoinRow) ∈
      db.media_mediaTag.filter
        (fun r => decide (r = { mediaId := self.id, mediaTagId := x })) := by
    simp only [List.mem_filter, decide_True, and_true]
    exact (mem_existingTagIds db self x).1 hE
  rw [← hrows] at hmem
  exact (List.mem_filter.1 hmem).1

/-- C4 at the example of the specification: record 1 tagged {A, B}, incoming
[B, C]; the join row of B is kept as it was. -/
theorem setTags_common_untouched_witness :
    (11 : Int) ∈ existingTagIds exampleDb exampleRecord
      ∧ (11 : Int) ∈ incomingTagIds [⟨11, "B"⟩, ⟨12, "C"⟩]
      ∧ (11 : Int) ∉ idsToUnrelate exampleDb exampleRecord [⟨11, "B"⟩, ⟨12, "C"⟩]
      ∧ (11 : Int) ∉ idsToRelate exampleDb exampleRecord [⟨11, "B"⟩, ⟨12, "C"⟩]
      ∧ (setTags exampleDb exampleRecord [⟨11, "B"⟩, ⟨12, "C"⟩] true).1.media_mediaTag.filter
          (fun r => decide (r = { mediaId := exampleRecord.id, mediaTagId := 11 })) =
        exampleDb.media_mediaTag.filter
          (fun r => decide (r = { mediaId := exampleRecord.id, mediaTagId := 11 }))
      ∧ ({ mediaId := exampleRecord.id, mediaTagId := 11 } : JoinRow) ∈
          (setTags exampleDb exampleRecord [⟨11, "B"⟩, ⟨12, "C"⟩] true).1.media_mediaTag :=
  ⟨by decide, by decide,
    setTags_common_untouched exampleDb exampleRecord [⟨11, "B"⟩, ⟨12, "C"⟩] true 11
      (by decide) (by decide)⟩

end Media

namespace Media

theorem difference_eq_nil_of_subset (array values : List Int) (h : ∀ x, x ∈ array → x ∈ values) :
    difference array values = [] := by
  unfold difference
  rw [List.filter_eq_nil_iff]
  intro a ha
  simpa using h a ha

theorem relate_unrelate_nil (db : Db) (self : Media) :
    relate (unrelate db self []) self [] = db := by
  cases db
  simp [relate, unrelate]

/-- C6: when the existing and the incoming tag ids are equal as sets, both
computed id lists are empty, the store is unchanged and `setTags` returns the
incoming sequence itself; and a `setTags` repeated right after a `setTags` with
the same tags computes empty id lists and leaves the store unchanged. -/
theorem setTags_same_set_no_writes (db : Db) (self : Media) (mediaTags : List MediaTag)
    (relateFirst : Bool) :
    ((∀ x, x ∈ existingTagIds db self ↔ x ∈ incomingTagIds mediaTags) →
        idsToUnrelate db self mediaTags = []
          ∧ idsToRelate db self mediaTags = []
          ∧ (setTags db self mediaTags relateFirst).1 = db
          ∧ (setTags db self mediaTags relateFirst).2 = mediaTags)
      ∧ (∀ again : Bool,
          idsToUnrelate (setTags db self mediaTags relateFirst).1 self mediaTags = []
            ∧ idsToRelate (setTags db self mediaTags relateFirst).1 self mediaTags = []
            ∧ (setTags (setTags db self mediaTags relateFirst).1 self mediaTags again).1 =
                (setTags db self mediaTags relateFirst).1
            ∧ (setTags (setTags db self mediaTags relateFirst).1 self mediaTags again).2 =
                mediaTags) := by
  have step : ∀ (d : Db) (o : Bool),
      (∀ x, x ∈ existingTagIds d self ↔ x ∈ incomingTagIds mediaTags) →
        idsToUnrelate d self mediaTags = []
          ∧ idsToRelate d self mediaTags = []
          ∧ (setTags d self mediaTags o).1 = d
          ∧ (setTags d self mediaTags o).2 = mediaTags := by
    intro d o h
    have hU : idsToUnrelate d self mediaTags = [] :=
      difference_eq_nil_of_subset _ _ (fun x hx => (h x).1 hx)
    have hR : idsToRelate d self mediaTags = [] :=
      difference_eq_nil_of_subset _ _ (fun x hx => (h x).2 hx)
    refine ⟨hU, hR, ?_, rfl⟩
    rw [setTags_fst, hU, hR, relate_unrelate_nil]
  refine ⟨step db relateFirst, fun again => ?_⟩
  apply step
  intro x
  rw [existingTagIds_setTags]
  simp only [List.mem_append, List.mem_filter, decide_eq_true_eq, idsToUnrelate,
    idsToRelate, mem_difference]
  tauto

/-- C6 at a concrete input: record 1 tagged [A, B], incoming [B, A] (the same
set in another order): nothing to unrelate, nothing to relate, the join table
is as before and the incoming sequence is returned. -/
theorem setTags_same_set_no_writes_witness :
    (∀ x, x ∈ existingTagIds exampleDb exampleRecord ↔
        x ∈ incomingTagIds [⟨11, "B"⟩, ⟨10, "A"⟩])
      ∧ idsToUnrelate exampleDb exampleRecord [⟨11, "B"⟩, ⟨10, "A"⟩] = []
      ∧ idsToRelate exampleDb exampleRecord [⟨11, "B"⟩, ⟨10, "A"⟩] = []
      ∧ (setTags exampleDb exampleRecord [⟨11, "B"⟩, ⟨10, "A"⟩] false).1.media_mediaTag =
          [⟨1, 10⟩, ⟨1, 11⟩, ⟨2, 10⟩]
      ∧ (setTags exampleDb exampleRecord [⟨11, "B"⟩, ⟨10, "A"⟩] false).2 =
          [⟨11, "B"⟩, ⟨10, "A"⟩] := by
  have h : ∀ x, x ∈ existingTagIds exampleDb exampleRecord ↔
      x ∈ incomingTagIds [⟨11, "B"⟩, ⟨10, "A"⟩] := by
    intro x
    simp [existingTagIds_eq, incomingTagIds, exampleDb, exampleRecord]
    tauto
  have w := (setTags_same_set_no_writes exampleDb exampleRecord
    [⟨11, "B"⟩, ⟨10, "A"⟩] false).1 h
  exact ⟨h, w.1, w.2.1, by rw [w.2.2.1]; rfl, w.2.2.2⟩

/-- C10, as stated, fails: with no existing tag and the incoming sequence
[C, C], the id list `setTags` hands to `relate` is [C, C]: the id C occurs in
it twice, so the list is not duplicate-free. -/
theorem idsToRelate_duplicate_counterexample :
    idsToRelate { exampleDb with media_mediaTag := [] } exampleRecord
        [⟨12, "C"⟩, ⟨12, "C"⟩] = [12, 12]
      ∧ (idsToRelate { exampleDb with media_mediaTag := [] } exampleRecord
        [⟨12, "C"⟩, ⟨12, "C"⟩]).count 12 = 2
      ∧ ¬ (idsToRelate { exampleDb with media_mediaTag := [] } exampleRecord
        [⟨12, "C"⟩, ⟨12, "C"⟩]).Nodup
      ∧ ¬ (∀ (db : Db) (self : Media) (mediaTags : List MediaTag),
        (idsToRelate db self mediaTags).Nodup) := by
  refine ⟨by decide, by decide, by decide, fun h => ?_⟩
  exact absurd (h { exampleDb with media_mediaTag := [] } exampleRecord
    [⟨12, "C"⟩, ⟨12, "C"⟩]) (by decide)

/-- C10, amended: the id list `setTags` hands to `relate` is the incoming id
list with the existing ids filtered out, in incoming order and with
multiplicities kept: it is a sublist of the incoming id list, an existing id
occurs in it zero times and any other id as often as in the incoming sequence.
When the incoming sequence names no tag id twice, the list has no repeated id
and after `setTags` (in either order of its writes) each wanted and absent tag
has exactly one join row. -/
theorem idsToRelate_filters_incoming (db : Db) (self : Media) (mediaTags : List MediaTag) :
    idsToRelate db self mediaTags =
        (mediaTags.map (fun entryTag => entryTag.id)).filter
          (fun x => decide (x ∉ existingTagIds db self))
      ∧ List.Sublist (idsToRelate db self mediaTags) (incomingTagIds mediaTags)
      ∧ (∀ x, (idsToRelate db self mediaTags).count x =
          if x ∈ existingTagIds db self then 0 else (incomingTagIds mediaTags).count x)
      ∧ ((incomingTagIds mediaTags).Nodup →
          (idsToRelate db self mediaTags).Nodup
            ∧ ∀ (relateFirst : Bool) (x : Int), x ∈ incomingTagIds mediaTags →
                x ∉ existingTagIds db self →
                (setTags db self mediaTags relateFirst).1.media_mediaTag.count
                  { mediaId := self.id, mediaTagId := x } = 1) := by
  refine ⟨rfl, ?_, fun x => difference_count _ _ x, fun hnd => ?_⟩
  · unfold idsToRelate difference
    exact List.filter_sublist _
  have hR : (idsToRelate db self mediaTags).Nodup := List.Nodup.filter _ hnd
  refine ⟨hR, fun relateFirst x hT hE => ?_⟩
  rw [setTags_fst]
  simp only [relate, unrelate, List.count_append]
  have h1 : List.count ({ mediaId := self.id, mediaTagId := x } : JoinRow)
      (List.filter (fun r => decide (¬ (r.mediaId = self.id ∧
        r.mediaTagId ∈ idsToUnrelate db self mediaTags))) db.media_mediaTag) = 0 := by
    rw [List.count_eq_zero]
    intro hmem
    exact hE ((mem_existingTagIds db self x).2 (List.mem_filter.1 hmem).1)
  have hinj : Function.Injective
      (fun t => ({ mediaId := self.id, mediaTagId := t } : JoinRow)) := by
    intro a b hab
    simpa using hab
  have h2 : List.count ({ mediaId := self.id, mediaTagId := x } : JoinRow)
      (List.map (fun t => ({ mediaId := self.id, mediaTagId := t } : JoinRow))
        (idsToRelate db self mediaTags)) = 1 := by
    rw [List.count_map_of_injective _ _ hinj]
    exact List.count_eq_one_of_mem hR ((mem_difference _ _ x).2 ⟨hT, hE⟩)
  rw [h1, h2]

/-- C10 amended, at a concrete input without repeated ids: record 2 tagged
{A}, incoming [C, A, B]; `idsToRelate` is [C, B], in incoming order, and C gets
exactly one join row. -/
theorem idsToRelate_filters_incoming_witness :
    (incomingTagIds [⟨12, "C"⟩, ⟨10, "A"⟩, ⟨11, "B"⟩]).Nodup
      ∧ idsToRelate exampleDb { exampleRecord with id := 2, projectId := 7 }
          [⟨12, "C"⟩, ⟨10, "A"⟩, ⟨11, "B"⟩] = [12, 11]
      ∧ (setTags exampleDb { exampleRecord with id := 2, projectId := 7 }
          [⟨12, "C"⟩, ⟨10, "A"⟩, ⟨11, "B"⟩] true).1.media_mediaTag.count
            { mediaId := 2, mediaTagId := 12 } = 1 :=
  ⟨by decide, by decide,
    ((idsToRelate_filters_incoming exampleDb { exampleRecord with id := 2, projectId := 7 }
        [⟨12, "C"⟩, ⟨10, "A"⟩, ⟨11, "B"⟩]).2.2.2
      (by decide)).2 true 12 (by decide) (by decide)⟩

end Media

/-! ## `bulkDelete` -/

namespace Media

/-- C2: on a `media` table with unique ids, `bulkDelete` keeps exactly the rows
that are not both listed in `arrayOfIds` and in the given project (so a listed
row of another project survives), keeps them in place and as often as before,
and returns the number of rows removed, at most the number of distinct ids
listed. -/
theorem bulkDelete_scoped (db : Db) (arrayOfIds : List Int) (projectId : Int)
    (hid : (db.media.map (fun r => r.id)).Nodup) :
    (∀ r, r ∈ (bulkDelete db arrayOfIds projectId).1.media ↔
        r ∈ db.media ∧ ¬ (r.id ∈ arrayOfIds ∧ r.projectId = projectId))
      ∧ List.Sublist (bulkDelete db arrayOfIds projectId).1.media db.media
      ∧ (∀ r, ¬ (r.id ∈ arrayOfIds ∧ r.projectId = projectId) →
          (bulkDelete db arrayOfIds projectId).1.media.count r = db.media.count r)
      ∧ (∀ r, r ∈ db.media → r.id ∈ arrayOfIds → r.projectId ≠ projectId →
          r ∈ (bulkDelete db arrayOfIds projectId).1.media)
      ∧ (bulkDelete db arrayOfIds projectId).2 =
          (db.media.filter
            (fun r => decide (r.id ∈ arrayOfIds ∧ r.projectId = projectId))).length
      ∧ (bulkDelete db arrayOfIds projectId).2 +
          (bulkDelete db arrayOfIds projectId).1.media.length = db.media.length
      ∧ (bulkDelete db arrayOfIds projectId).2 ≤ arrayOfIds.dedup.length := by
  refine ⟨?_, ?_, ?_, ?_, rfl, ?_, ?_⟩
  · intro r
    simp only [bulkDelete, List.mem_filter, Bool.not_eq_true', decide_eq_false_iff_not]
  · simp [bulkDelete]
  · intro r hr
    simp only [bulkDelete]
    rw [List.count_filter]
    simp only [Bool.not_eq_true', decide_eq_false_iff_not]
    exact hr
  · intro r hr _ hp
    simp only [bulkDelete, List.mem_filter]
    refine ⟨hr, ?_⟩
    simp [hp]
  · simp only [bulkDelete]
    rw [List.length_eq_length_filter_add
      (fun r => decide (r.id ∈ arrayOfIds ∧ r.projectId = projectId)) (l := db.media)]
  · simp only [bulkDelete]
    have hnd : ((db.media.filter
        (fun r => decide (r.id ∈ arrayOfIds ∧ r.projectId = projectId))).map
          (fun r => r.id)).Nodup :=
      List.Nodup.sublist ((List.filter_sublist _).map _) hid
    have hsub : (db.media.filter
        (fun r => decide (r.id ∈ arrayOfIds ∧ r.projectId = projectId))).map
          (fun r => r.id) ⊆ arrayOfIds.dedup := by
      intro x hx
      simp only [List.mem_map, List.mem_filter, decide_eq_true_eq] at hx
      obtain ⟨r, ⟨_, hr, _⟩, rfl⟩ := hx
      exact List.mem_dedup.2 hr
    have hle := (List.subperm_of_subset hnd hsub).length_le
    simpa using hle

/-- C2 at the example of the specification: ids [1, 2, 3], project 5, row 2 in
project 7: rows 1 and 3 are removed, row 2 is kept, the count is 2. -/
theorem bulkDelete_scoped_witness :
    (exampleDb.media.map (fun r => r.id)).Nodup
      ∧ (bulkDelete exampleDb [1, 2, 3] 5).2 = 2
      ∧ (bulkDelete exampleDb [1, 2, 3] 5).1.media =
          [{ exampleRecord with id := 2, projectId := 7 }]
      ∧ (bulkDelete exampleDb [1, 2, 3] 5).2 +
          (bulkDelete exampleDb [1, 2, 3] 5).1.media.length = exampleDb.media.length :=
  ⟨by decide, by decide, by decide,
    (bulkDelete_scoped exampleDb [1, 2, 3] 5 (by decide)).2.2.2.2.2.1⟩

/-- C3: a second `bulkDelete` with the same arguments right after the first
returns 0 and leaves the store exactly as the first call left it; the model is
a total function, so the call yields this result without failing. -/
theorem bulkDelete_idempotent (db : Db) (arrayOfIds : List Int) (projectId : Int) :
    (bulkDelete (bulkDelete db arrayOfIds projectId).1 arrayOfIds projectId).2 = 0
      ∧ (bulkDelete (bulkDelete db arrayOfIds projectId).1 arrayOfIds projectId).1 =
          (bulkDelete db arrayOfIds projectId).1 := by
  constructor
  · simp only [bulkDelete, List.length_eq_zero, List.filter_filter]
    rw [List.filter_eq_nil_iff]
    intro r _
    simp
  · simp only [bulkDelete, List.filter_filter]
    congr 1
    apply List.filter_congr
    intro r _
    simp

/-- C3 at the example of the specification: the second call with ids [1, 2, 3]
and project 5 returns 0 and the table still holds row 2 only. -/
theorem bulkDelete_idempotent_example :
    (bulkDelete (bulkDelete exampleDb [1, 2, 3] 5).1 [1, 2, 3] 5).2 = 0
      ∧ (bulkDelete (bulkDelete exampleDb [1, 2, 3] 5).1 [1, 2, 3] 5).1.media =
          [{ exampleRecord with id := 2, projectId := 7 }] :=
  ⟨(bulkDelete_idempotent exampleDb [1, 2, 3] 5).1, by decide⟩

end Media

/-! ## `toJSON` -/

namespace Media

/-- C7: for a record with a loaded tag list, `toJSON` yields the tags' names,
as many as there are tags and in the same order; for a record without a loaded
tag list the output has no `tags`.  `toJSON` is a function of the record: the
record, and with it its tag list, is the same value after the call. -/
theorem toJSON_tags (resolve : String → String → String) (config : Config) (self : Media) :
    (∀ tags, self.tags = some tags →
        (toJSON resolve config self).tags = some (tags.map (fun tag => tag.name))
          ∧ ∃ names, (toJSON resolve config self).tags = some names
              ∧ names.length = tags.length
              ∧ ∀ (i : Nat) (h : i < tags.length), names[i]? = some (tags[i]).name)
      ∧ (self.tags = none → (toJSON resolve config self).tags = none) := by
  refine ⟨fun tags h => ?_, fun h => ?_⟩
  · have e : (toJSON resolve config self).tags = some (tags.map (fun tag => tag.name)) := by
      simp [toJSON, superToJSON, h]
    refine ⟨e, _, e, by simp, fun i hi => ?_⟩
    simp [List.getElem?_map, List.getElem?_eq_getElem hi]
  · simp [toJSON, superToJSON, h]

/-- C7 at a concrete input: tags loaded as [B, A] give ["B", "A"]; tags not
loaded give no `tags`. -/
theorem toJSON_tags_witness :
    (toJSON (fun base path => base ++ path) ⟨"https://media.example/"⟩
        { exampleRecord with tags := some [⟨11, "B"⟩, ⟨10, "A"⟩] }).tags = some ["B", "A"]
      ∧ (toJSON (fun base path => base ++ path) ⟨"https://media.example/"⟩
        exampleRecord).tags = none :=
  ⟨((toJSON_tags (fun base path => base ++ path) ⟨"https://media.example/"⟩
      { exampleRecord with tags := some [⟨11, "B"⟩, ⟨10, "A"⟩] }).1
        [⟨11, "B"⟩, ⟨10, "A"⟩] rfl).1,
    (toJSON_tags (fun base path => base ++ path) ⟨"https://media.example/"⟩
      exampleRecord).2 rfl⟩

/-- C8: `toJSON` sets `file` to `url.resolve(MEDIA_URL, file)`; sets `thumbnail`
to `url.resolve(MEDIA_URL, thumbnail)` when the stored thumbnail is present and
non-empty; leaves an absent thumbnail absent and an empty one empty; and copies
every attribute other than `file`, `thumbnail` and `tags`. -/
theorem toJSON_file_thumbnail (resolve : String → String → String) (config : Config)
    (self : Media) :
    (toJSON resolve config self).file = resolve config.MEDIA_URL self.file
      ∧ (∀ t, self.thumbnail = some t → t ≠ "" →
          (toJSON resolve config self).thumbnail = some (resolve config.MEDIA_URL t))
      ∧ (self.thumbnail = none → (toJSON resolve config self).thumbnail = none)
      ∧ (self.thumbnail = some "" → (toJSON resolve config self).thumbnail = some "")
      ∧ (toJSON resolve config self).id = self.id
      ∧ (toJSON resolve config self).name = self.name
      ∧ (toJSON resolve config self).mimeType = self.mimeType
      ∧ (toJSON resolve config self).size = self.size
      ∧ (toJSON resolve config self).width = self.width
      ∧ (toJSON resolve config self).height = self.height
      ∧ (toJSON resolve config self).description = self.description
      ∧ (toJSON resolve config self).projectId = self.projectId
      ∧ (toJSON resolve config self).userId = self.userId
      ∧ (toJSON resolve config self).createdAt = self.createdAt
      ∧ (toJSON resolve config self).modifiedAt = self.modifiedAt := by
  refine ⟨rfl, fun t h ht => ?_, fun h => ?_, fun h => ?_,
    rfl, rfl, rfl, rfl, rfl, rfl, rfl, rfl, rfl, rfl, rfl⟩
  · simp [toJSON, superToJSON, h, ht]
  · simp [toJSON, superToJSON, h]
  · simp [toJSON, superToJSON, h]

/-- C8 at the example of the specification: base `https://media.example/`, file
`a/b.png`, no thumbnail.  For every `resolve` that maps this base and path to
`https://media.example/a/b.png`, as `url.resolve` does, the output `file` is
that URL and the output has no thumbnail; and a stored thumbnail `a/t.png` is
resolved the same way. -/
theorem toJSON_file_thumbnail_witness :
    (∀ resolve : String → String → String,
        resolve "https://media.example/" "a/b.png" = "https://media.example/a/b.png" →
        (toJSON resolve ⟨"https://media.example/"⟩ exampleRecord).file =
            "https://media.example/a/b.png"
          ∧ (toJSON resolve ⟨"https://media.example/"⟩ exampleRecord).thumbnail = none)
      ∧ (∀ resolve : String → String → String,
        (toJSON resolve ⟨"https://media.example/"⟩
          { exampleRecord with thumbnail := some "a/t.png" }).thumbnail =
            some (resolve "https://media.example/" "a/t.png")) :=
  ⟨fun resolve h =>
      ⟨(toJSON_file_thumbnail resolve ⟨"https://media.example/"⟩ exampleRecord).1.trans h,
        (toJSON_file_thumbnail resolve ⟨"https://media.example/"⟩ exampleRecord).2.2.1 rfl⟩,
    fun resolve =>
      (toJSON_file_thumbnail resolve ⟨"https://media.example/"⟩
        { exampleRecord with thumbnail := some "a/t.png" }).2.1 "a/t.png" rfl (by decide)⟩

end Media

/-! ## Schema validation on create -/

namespace Media

/-- The thirteen property names `jsonSchema` declares. -/
theorem jsonSchema_properties :
    jsonSchema.properties.map Prod.fst =
      ["id", "name", "file", "thumbnail", "mimeType", "size", "width", "height",
        "description", "projectId", "userId", "createdAt", "modifiedAt"] := rfl

/-- Validation is not a blanket refusal: an input holding exactly the required
fields, well-typed, is accepted and one row is inserted, with the declared
defaults filled in and the next free id. -/
theorem create_accepts_example :
    (create (fun _ => true) exampleDb [("name", .string "x"), ("file", .string "a/b.png"),
        ("mimeType", .string "image/png"), ("size", .number 3), ("projectId", .number 5),
        ("userId", .number 1)]).2 =
      .ok { exampleRecord with id := 4, name := "x", size := 3 }
      ∧ (create (fun _ => true) exampleDb [("name", .string "x"), ("file", .string "a/b.png"),
        ("mimeType", .string "image/png"), ("size", .number 3), ("projectId", .number 5),
        ("userId", .number 1)]).1.media.length = 4 :=
  ⟨rfl, rfl⟩

/-- C9: an input object with a property whose name is not one of the thirteen
declared by `jsonSchema` fails validation on create with a `ValidationError`
naming that property under `additionalProperties`, whatever else the input
holds, and the store is unchanged. -/
theorem create_rejects_unknown_property (isDateTime : String → Bool) (db : Db)
    (json : JsonObject) (key : String) (hkey : key ∈ json.map Prod.fst)
    (hunknown : key ∉ ["id", "name", "file", "thumbnail", "mimeType", "size", "width",
      "height", "description", "projectId", "userId", "createdAt", "modifiedAt"]) :
    (create isDateTime db json).1 = db
      ∧ ∃ e : ValidationError, (create isDateTime db json).2 = .error e
          ∧ (key, "additionalProperties") ∈ e.data
          ∧ validate isDateTime jsonSchema json = .error e := by
  obtain ⟨kv, hkv, rfl⟩ := List.mem_map.1 hkey
  rw [← jsonSchema_properties] at hunknown
  have hmem : (kv.1, "additionalProperties") ∈
      ((applyDefaults jsonSchema json).filter
        (fun kv => decide (kv.1 ∉ jsonSchema.properties.map Prod.fst))).map
          (fun kv => (kv.1, "additionalProperties")) := by
    refine List.mem_map.2 ⟨kv, List.mem_filter.2 ⟨?_, by simpa using hunknown⟩, rfl⟩
    exact List.mem_append_left _ hkv
  have hadd : jsonSchema.additionalProperties = false := rfl
  have hval : ∃ e : ValidationError, validate isDateTime jsonSchema json = .error e
      ∧ (kv.1, "additionalProperties") ∈ e.data := by
    unfold validate
    simp only [hadd, Bool.false_eq_true, if_false]
    split
    · rename_i hnil
      have := List.append_eq_nil.1 hnil
      have h2 := (List.append_eq_nil.1 this.1).2
      rw [h2] at hmem
      exact absurd hmem (List.not_mem_nil _)
    · exact ⟨_, rfl, List.mem_append_left _ (List.mem_append_right _ hmem)⟩
  obtain ⟨e, he, hin⟩ := hval
  refine ⟨?_, e, ?_, hin, he⟩
  · simp [create, he]
  · simp [create, he]

/-- C9 at a concrete input: every required field is valid and there is one extra
property `tags`; create fails and the table keeps its three rows. -/
theorem create_rejects_unknown_property_witness :
    "tags" ∈ List.map Prod.fst ([("name", .string "x"), ("file", .string "a/b.png"),
        ("mimeType", .string "image/png"), ("size", .number 3), ("projectId", .number 5),
        ("userId", .number 1), ("tags", .array)] : JsonObject)
      ∧ (create (fun _ => true) exampleDb [("name", .string "x"), ("file", .string "a/b.png"),
        ("mimeType", .string "image/png"), ("size", .number 3), ("projectId", .number 5),
        ("userId", .number 1), ("tags", .array)]).1.media = exampleDb.media
      ∧ ∃ e : ValidationError,
        (create (fun _ => true) exampleDb [("name", .string "x"), ("file", .string "a/b.png"),
          ("mimeType", .string "image/png"), ("size", .number 3), ("projectId", .number 5),
          ("userId", .number 1), ("tags", .array)]).2 = .error e := by
  have w := create_rejects_unknown_property (fun _ => true) exampleDb
    [("name", .string "x"), ("file", .string "a/b.png"),
      ("mimeType", .string "image/png"), ("size", .number 3), ("projectId", .number 5),
      ("userId", .number 1), ("tags", .array)] "tags" (by decide) (by decide)
  obtain ⟨h1, e, h2, _⟩ := w
  exact ⟨by decide, by rw [h1], e, h2⟩

end Media
